import Mathlib

/-!
Shallow embedding of the `LocationLockedVault` Solidity contract
(`contracts/LocationLockedVault.sol` of the DocGuardVault backend).

Modelling conventions:
* `bytes32` file hashes and `address` principals are opaque identifiers,
  modelled as `Nat`; the distinguished zero address is `0`.
* Solidity mappings are total functions with the zero-initialised default
  (`fileRecords` defaults to a record whose `uploader` is the zero address,
  `accessControl` defaults to `false`).
* `msg.sender` and `block.timestamp` are explicit parameters.
* A public state-mutating function is `State → Except String State`: `require`
  failure is `.error msg` with the contract's revert string; EVM revert
  semantics (a reverted call leaves storage and the event log untouched) are
  captured by `applyTx`, which keeps the pre-state on `.error`.
* `int256` arithmetic is modelled on `ℤ`: every intermediate value occurring in
  `calculateDistance`/`cos`/`sqrt` on `int32`-ranged inputs is far below
  `2^255`, so no checked-arithmetic revert is reachable and `ℤ` is exact.
  Solidity `int256` division truncates toward zero, which is `Int.tdiv`.
* The Babylonian loop in `sqrt` runs on positive values only (`x ≥ 1` after
  the two early returns, and then `z, y ≥ 1` throughout), so it is modelled on
  `Nat`, where `/` agrees with the truncating `int256` division of the source.
  The loop strictly decreases `y` (`y := z` only when `z < y`), and `y` starts
  at `x`, so `x` bounds the number of iterations; `sqrtAux` makes that bound a
  structural fuel argument, which never runs out on the arguments `sqrt`
  passes it.
-/

namespace LocationLockedVault

abbrev Address := Nat
abbrev Hash := Nat

/-- `struct FileRecord` of the contract.  `signature` is an opaque byte
string, modelled as a list of bytes. -/
structure FileRecord where
  uploader : Address
  ipfsCID : String
  signature : List Nat
  timestamp : Nat
  hasLocationLock : Bool
  latitude : Int
  longitude : Int
  radius : Nat
deriving DecidableEq, Repr

/-- The zero-initialised mapping default for `fileRecords`. -/
def emptyRecord : FileRecord :=
  { uploader := 0, ipfsCID := "", signature := [], timestamp := 0,
    hasLocationLock := false, latitude := 0, longitude := 0, radius := 0 }

/-- The three events the contract emits. -/
inductive Event where
  | FileUploaded (fileHash : Hash) (uploader : Address) (ipfsCID : String)
      (signature : List Nat) (timestamp : Nat) (hasLocationLock : Bool)
      (latitude longitude : Int) (radius : Nat)
  | AccessGranted (fileHash : Hash) (grantee : Address)
  | AccessRevoked (fileHash : Hash) (grantee : Address)
deriving DecidableEq, Repr

/-- Contract storage plus the emitted-event log. -/
structure State where
  fileRecords : Hash → FileRecord
  accessControl : Hash → Address → Bool
  eventLog : List Event

/-- Freshly deployed contract: zero-initialised mappings, no events. -/
def initState : State :=
  { fileRecords := fun _ => emptyRecord,
    accessControl := fun _ _ => false,
    eventLog := [] }

/-- `uploadFile`: write-once registry insert.  Mirrors the source order of
checks: existence (`uploader == address(0)`), then non-empty CID; on success
stores the record, grants the sender access, and emits `FileUploaded`. -/
def uploadFile (s : State) (sender : Address) (nowTs : Nat) (fileHash : Hash)
    (ipfsCID : String) (signature : List Nat) (hasLocationLock : Bool)
    (latitude longitude : Int) (radius : Nat) : Except String State :=
  if (s.fileRecords fileHash).uploader = 0 then
    if 0 < ipfsCID.length then
      .ok { fileRecords := fun k =>
              if k = fileHash then
                { uploader := sender, ipfsCID := ipfsCID,
                  signature := signature, timestamp := nowTs,
                  hasLocationLock := hasLocationLock, latitude := latitude,
                  longitude := longitude, radius := radius }
              else s.fileRecords k,
            accessControl := fun k a =>
              if k = fileHash ∧ a = sender then true else s.accessControl k a,
            eventLog := s.eventLog ++
              [Event.FileUploaded fileHash sender ipfsCID signature nowTs
                hasLocationLock latitude longitude radius] }
    else .error "IPFS CID cannot be empty"
  else .error "File already uploaded"

/-- `getFileRecord`: pure lookup; the source returns the tuple of all record
fields, i.e. the (possibly zero-initialised default) record itself. -/
def getFileRecord (s : State) (fileHash : Hash) : FileRecord :=
  s.fileRecords fileHash

/-- `canAccess`: pure lookup in the access-control mapping. -/
def canAccess (s : State) (fileHash : Hash) (addr : Address) : Bool :=
  s.accessControl fileHash addr

/-- `fileExists`: a record exists iff its uploader is not the zero address. -/
def fileExists (s : State) (fileHash : Hash) : Bool :=
  (s.fileRecords fileHash).uploader ≠ 0

/-- `grantAccess`: single `require` comparing the stored uploader with the
sender, then a non-zero-grantee check; sets the relation true and emits. -/
def grantAccess (s : State) (sender : Address) (fileHash : Hash)
    (grantee : Address) : Except String State :=
  if (s.fileRecords fileHash).uploader = sender then
    if grantee ≠ 0 then
      .ok { s with
            accessControl := fun k a =>
              if k = fileHash ∧ a = grantee then true else s.accessControl k a,
            eventLog := s.eventLog ++ [Event.AccessGranted fileHash grantee] }
    else .error "Invalid grantee address"
  else .error "Only uploader can grant access"

/-- `revokeAccess`: uploader check, then self-revocation check; sets the
relation false and emits. -/
def revokeAccess (s : State) (sender : Address) (fileHash : Hash)
    (grantee : Address) : Except String State :=
  if (s.fileRecords fileHash).uploader = sender then
    if grantee ≠ sender then
      .ok { s with
            accessControl := fun k a =>
              if k = fileHash ∧ a = grantee then false else s.accessControl k a,
            eventLog := s.eventLog ++ [Event.AccessRevoked fileHash grantee] }
    else .error "Cannot revoke own access"
  else .error "Only uploader can revoke access"

/-- Babylonian-iteration loop body of the contract's `sqrt`, on `Nat` (see the
file header: on the reachable arguments all `int256` loop values are positive,
where `Nat` division agrees with truncating `int256` division).  The first
argument of the loop state is the structural fuel bounding the iteration
count. -/
def sqrtAux (x : Nat) : Nat → Nat → Nat → Nat
  | 0, _, y => y
  | fuel + 1, z, y =>
    if z < y then sqrtAux x fuel ((x / z + z) / 2) z else y

/-- The contract's `sqrt`: 0 on negative and zero input, otherwise the
Babylonian loop started at `z = (x+1)/2`, `y = x`. -/
def sqrt (x : Int) : Int :=
  if x < 0 then 0
  else if x = 0 then 0
  else ((sqrtAux x.toNat x.toNat ((x.toNat + 1) / 2) x.toNat : Nat) : Int)

/-- The contract's `cos`: three-term Taylor expansion in fixed point, all
divisions truncating toward zero. -/
def cos (x : Int) : Int :=
  let x2 := Int.tdiv (x * x) 1000000
  let x4 := Int.tdiv (x2 * x2) 1000000
  1000000 - Int.tdiv x2 2 + Int.tdiv x4 24

/-- The contract's `calculateDistance`: micro-degrees to fixed-point radians
via `* 314159 / 180000000`, planar offsets, integer square root, scaled by the
Earth radius. -/
def calculateDistance (lat1 lon1 lat2 lon2 : Int) : Int :=
  let lat1Rad := Int.tdiv (lat1 * 314159) 180000000
  let lon1Rad := Int.tdiv (lon1 * 314159) 180000000
  let lat2Rad := Int.tdiv (lat2 * 314159) 180000000
  let lon2Rad := Int.tdiv (lon2 * 314159) 180000000
  let dLat := lat2Rad - lat1Rad
  let dLon := lon2Rad - lon1Rad
  let x := Int.tdiv (dLon * cos (Int.tdiv lat1Rad 1000000)) 1000000
  let y := dLat
  let distanceSquared := x * x + y * y
  Int.tdiv (sqrt distanceSquared * 6371000) 1000000

/-- `verifyLocation`: not-found check, unconditional `true` without a lock,
otherwise `distance <= radius`. -/
def verifyLocation (s : State) (fileHash : Hash)
    (currentLatitude currentLongitude : Int) : Except String Bool :=
  let record := s.fileRecords fileHash
  if record.uploader ≠ 0 then
    if record.hasLocationLock then
      .ok (decide (calculateDistance record.latitude record.longitude
            currentLatitude currentLongitude ≤ (record.radius : Int)))
    else .ok true
  else .error "File not found"

/-- A state-mutating contract call together with its transaction context
(`msg.sender`, and for uploads `block.timestamp`). -/
inductive Tx where
  | upload (sender : Address) (nowTs : Nat) (fileHash : Hash) (ipfsCID : String)
      (signature : List Nat) (hasLocationLock : Bool) (latitude longitude : Int)
      (radius : Nat)
  | grant (sender : Address) (fileHash : Hash) (grantee : Address)
  | revoke (sender : Address) (fileHash : Hash) (grantee : Address)
deriving DecidableEq, Repr

/-- The `msg.sender` of a transaction. -/
def Tx.sender : Tx → Address
  | .upload sender _ _ _ _ _ _ _ _ => sender
  | .grant sender _ _ => sender
  | .revoke sender _ _ => sender

/-- EVM transaction application: a successful call commits the new state, a
reverted call leaves the state (storage and event log) exactly as it was. -/
def applyTx (s : State) : Tx → State
  | .upload sender nowTs fh cid sig hl lat lon r =>
    match uploadFile s sender nowTs fh cid sig hl lat lon r with
    | .ok s2 => s2
    | .error _ => s
  | .grant sender fh g =>
    match grantAccess s sender fh g with
    | .ok s2 => s2
    | .error _ => s
  | .revoke sender fh g =>
    match revokeAccess s sender fh g with
    | .ok s2 => s2
    | .error _ => s

/-- The state reached from deployment by a sequence of transactions. -/
def run (txs : List Tx) : State :=
  txs.foldl applyTx initState

/-! ## Theorems -/

/-- C1: For every fileHash h and every state in which a record for h already
exists, a second call to uploadFile with the same h fails with the
AlreadyExists revert ("File already uploaded"), and the transaction leaves the
state, hence the record stored by the first call, unchanged. -/
theorem second_upload_fails (s : State) (fh : Hash)
    (hex : fileExists s fh = true)
    (sender : Address) (nowTs : Nat) (cid : String) (sig : List Nat)
    (hl : Bool) (lat lon : Int) (r : Nat) :
    uploadFile s sender nowTs fh cid sig hl lat lon r
      = .error "File already uploaded" ∧
    applyTx s (.upload sender nowTs fh cid sig hl lat lon r) = s := by
  have h0 : ¬ (s.fileRecords fh).uploader = 0 := by
    simpa [fileExists] using hex
  refine ⟨by simp [uploadFile, h0], by simp [applyTx, uploadFile, h0]⟩

/-- Witness for C1 at a concrete one-upload history. -/
theorem second_upload_fails_witness :
    fileExists (run [.upload 5 11 1 "QmX" [7] false 0 0 0]) 1 = true ∧
    uploadFile (run [.upload 5 11 1 "QmX" [7] false 0 0 0]) 9 12 1 "QmY" []
        false 0 0 0 = .error "File already uploaded" ∧
    applyTx (run [.upload 5 11 1 "QmX" [7] false 0 0 0])
        (.upload 9 12 1 "QmY" [] false 0 0 0)
      = run [.upload 5 11 1 "QmX" [7] false 0 0 0] :=
  ⟨by decide,
   second_upload_fails (run [.upload 5 11 1 "QmX" [7] false 0 0 0]) 1
     (by decide) 9 12 "QmY" [] false 0 0 0⟩

/-- C5: If a record exists for h and has hasLocationLock = false, then
verifyLocation returns true for every coordinate pair, including values
outside the valid coordinate range. -/
theorem no_lock_always_valid (s : State) (fh : Hash)
    (hex : fileExists s fh = true)
    (hlock : (s.fileRecords fh).hasLocationLock = false)
    (lat lon : Int) :
    verifyLocation s fh lat lon = .ok true := by
  have h0 : ¬ (s.fileRecords fh).uploader = 0 := by
    simpa [fileExists] using hex
  simp [verifyLocation, h0, hlock]

/-- Witness for C5 with wildly out-of-range coordinates. -/
theorem no_lock_always_valid_witness :
    fileExists (run [.upload 5 11 1 "QmX" [7] false 0 0 0]) 1 = true ∧
    ((run [.upload 5 11 1 "QmX" [7] false 0 0 0]).fileRecords 1).hasLocationLock
      = false ∧
    verifyLocation (run [.upload 5 11 1 "QmX" [7] false 0 0 0]) 1
      999000000 (-999000000) = .ok true :=
  ⟨by decide, by decide,
   no_lock_always_valid (run [.upload 5 11 1 "QmX" [7] false 0 0 0]) 1
     (by decide) (by decide) 999000000 (-999000000)⟩

/-- C6: For every fileHash with an existing record and every caller different
from the record's uploader, grantAccess and revokeAccess fail with the
Unauthorized reverts, for every grantee. -/
theorem non_uploader_unauthorized (s : State) (fh : Hash)
    (caller grantee : Address)
    (_hex : fileExists s fh = true)
    (hne : caller ≠ (s.fileRecords fh).uploader) :
    grantAccess s caller fh grantee = .error "Only uploader can grant access" ∧
    revokeAccess s caller fh grantee
      = .error "Only uploader can revoke access" := by
  have h0 : ¬ (s.fileRecords fh).uploader = caller := fun h => hne h.symm
  exact ⟨by simp [grantAccess, h0], by simp [revokeAccess, h0]⟩

/-- Witness for C6: address 9 is not the uploader (5). -/
theorem non_uploader_unauthorized_witness :
    fileExists (run [.upload 5 11 1 "QmX" [7] false 0 0 0]) 1 = true ∧
    (9 : Address) ≠ ((run [.upload 5 11 1 "QmX" [7] false 0 0 0]).fileRecords 1).uploader ∧
    grantAccess (run [.upload 5 11 1 "QmX" [7] false 0 0 0]) 9 1 3
      = .error "Only uploader can grant access" ∧
    revokeAccess (run [.upload 5 11 1 "QmX" [7] false 0 0 0]) 9 1 3
      = .error "Only uploader can revoke access" :=
  ⟨by decide, by decide,
   non_uploader_unauthorized (run [.upload 5 11 1 "QmX" [7] false 0 0 0]) 1 9 3
     (by decide) (by decide)⟩

/-- C9: Every failing uploadFile, grantAccess, or revokeAccess is atomic: when
the call reverts, the applied transaction leaves the whole state — the record
mapping, the access-control relation and the event log — exactly as it was. -/
theorem failed_call_leaves_state (s : State) (sender : Address) (nowTs : Nat)
    (fh : Hash) (cid : String) (sig : List Nat) (hl : Bool) (lat lon : Int)
    (r : Nat) (grantee : Address) (e1 e2 e3 : String) :
    (uploadFile s sender nowTs fh cid sig hl lat lon r = .error e1 →
      applyTx s (.upload sender nowTs fh cid sig hl lat lon r) = s) ∧
    (grantAccess s sender fh grantee = .error e2 →
      applyTx s (.grant sender fh grantee) = s) ∧
    (revokeAccess s sender fh grantee = .error e3 →
      applyTx s (.revoke sender fh grantee) = s) := by
  refine ⟨fun h => ?_, fun h => ?_, fun h => ?_⟩ <;> simp [applyTx, h]

/-- Witness for C9: a grant that reverts leaves the deployment state intact. -/
theorem failed_call_leaves_state_witness :
    applyTx initState (.grant 42 1 7) = initState :=
  (failed_call_leaves_state initState 42 0 1 "" [] false 0 0 0 7
      "" "Only uploader can grant access" "").2.1 rfl

/-- A property of states preserved by every transaction satisfying `Q` is
preserved by any fold of such transactions. -/
theorem preserve_foldl {P : State → Prop} {Q : Tx → Prop}
    (step : ∀ s tx, Q tx → P s → P (applyTx s tx)) :
    ∀ (txs : List Tx) (s : State), (∀ tx ∈ txs, Q tx) → P s →
      P (List.foldl applyTx s txs) := by
  intro txs
  induction txs with
  | nil => intro s _ hP; simpa using hP
  | cons t ts ih =>
    intro s hQ hP
    simp only [List.foldl_cons]
    exact ih _ (fun tx htx => hQ tx (List.mem_cons_of_mem _ htx))
      (step s t (hQ t (List.mem_cons_self _ _)) hP)

/-- Invariant: wherever a record exists, its uploader is in the access list. -/
def UploaderHasAccess (s : State) : Prop :=
  ∀ fh : Hash, (s.fileRecords fh).uploader ≠ 0 →
    s.accessControl fh ((s.fileRecords fh).uploader) = true

theorem uploaderHasAccess_init : UploaderHasAccess initState := by
  intro fh h
  simp [initState, emptyRecord] at h

theorem uploaderHasAccess_applyTx (s : State) (tx : Tx)
    (h : UploaderHasAccess s) : UploaderHasAccess (applyTx s tx) := by
  cases tx with
  | upload sender nowTs fh cid sig hl lat lon r =>
    by_cases h1 : (s.fileRecords fh).uploader = 0
    · by_cases h2 : 0 < cid.length
      · intro k hk
        simp only [applyTx, uploadFile, if_pos h1, if_pos h2] at hk ⊢
        by_cases hkf : k = fh
        · subst hkf
          simp at hk ⊢
        · simp only [if_neg hkf] at hk ⊢
          have : ¬ (k = fh ∧ (s.fileRecords k).uploader = sender) :=
            fun hc => hkf hc.1
          simp only [if_neg this]
          exact h k hk
      · simpa [applyTx, uploadFile, if_pos h1, if_neg h2] using h
    · simpa [applyTx, uploadFile, if_neg h1] using h
  | grant sender fh g =>
    by_cases h1 : (s.fileRecords fh).uploader = sender
    · by_cases h2 : g ≠ 0
      · intro k hk
        simp only [applyTx, grantAccess, if_pos h1, if_pos h2] at hk ⊢
        split
        · rfl
        · exact h k hk
      · simpa [applyTx, grantAccess, if_pos h1, if_neg h2] using h
    · simpa [applyTx, grantAccess, if_neg h1] using h
  | revoke sender fh g =>
    by_cases h1 : (s.fileRecords fh).uploader = sender
    · by_cases h2 : g ≠ sender
      · intro k hk
        simp only [applyTx, revokeAccess, if_pos h1, if_pos h2] at hk ⊢
        split
        · rename_i hc
          obtain ⟨hkf, hg⟩ := hc
          rw [hkf, h1] at hg
          exact absurd hg.symm h2
        · exact h k hk
      · simpa [applyTx, revokeAccess, if_pos h1, if_neg h2] using h
    · simpa [applyTx, revokeAccess, if_neg h1] using h

/-- C2: In every state reachable by any sequence of transactions, for every
fileHash with an existing record the uploader can access it, and a
self-revocation by the uploader fails with the SelfRevocation revert
("Cannot revoke own access"), so the uploader's entry is never set false. -/
theorem uploader_always_has_access (txs : List Tx) (fh : Hash)
    (hex : fileExists (run txs) fh = true) :
    canAccess (run txs) fh (((run txs).fileRecords fh).uploader) = true ∧
    revokeAccess (run txs) (((run txs).fileRecords fh).uploader) fh
        (((run txs).fileRecords fh).uploader)
      = .error "Cannot revoke own access" := by
  have hinv : UploaderHasAccess (run txs) :=
    preserve_foldl (Q := fun _ => True)
      (fun s tx _ => uploaderHasAccess_applyTx s tx)
      txs initState (fun _ _ => trivial) uploaderHasAccess_init
  have h0 : ((run txs).fileRecords fh).uploader ≠ 0 := by
    simpa [fileExists] using hex
  exact ⟨hinv fh h0, by simp [revokeAccess]⟩

/-- Witness for C2 at a concrete history with one upload and one grant. -/
theorem uploader_always_has_access_witness :
    fileExists (run [.upload 5 11 1 "QmX" [7] false 0 0 0, .grant 5 1 9]) 1
      = true ∧
    canAccess (run [.upload 5 11 1 "QmX" [7] false 0 0 0, .grant 5 1 9]) 1
      (((run [.upload 5 11 1 "QmX" [7] false 0 0 0, .grant 5 1 9]).fileRecords 1).uploader)
      = true ∧
    revokeAccess (run [.upload 5 11 1 "QmX" [7] false 0 0 0, .grant 5 1 9])
      (((run [.upload 5 11 1 "QmX" [7] false 0 0 0, .grant 5 1 9]).fileRecords 1).uploader)
      1
      (((run [.upload 5 11 1 "QmX" [7] false 0 0 0, .grant 5 1 9]).fileRecords 1).uploader)
      = .error "Cannot revoke own access" :=
  ⟨by decide,
   uploader_always_has_access [.upload 5 11 1 "QmX" [7] false 0 0 0, .grant 5 1 9]
     1 (by decide)⟩

/-- Invariant: a hash whose uploader slot is zero has the default record and
an all-false access row (only meaningful for histories whose senders are all
non-zero, since the EVM guarantees the zero address never sends). -/
def AbsentIsDefault (s : State) : Prop :=
  ∀ fh : Hash, (s.fileRecords fh).uploader = 0 →
    s.fileRecords fh = emptyRecord ∧ ∀ p : Address, s.accessControl fh p = false

theorem absentIsDefault_init : AbsentIsDefault initState :=
  fun _ _ => ⟨rfl, fun _ => rfl⟩

theorem absentIsDefault_applyTx (s : State) (tx : Tx) (hs : tx.sender ≠ 0)
    (h : AbsentIsDefault s) : AbsentIsDefault (applyTx s tx) := by
  cases tx with
  | upload sender nowTs fh cid sig hl lat lon r =>
    have hs' : sender ≠ 0 := hs
    by_cases h1 : (s.fileRecords fh).uploader = 0
    · by_cases h2 : 0 < cid.length
      · intro k hk
        simp only [applyTx, uploadFile, if_pos h1, if_pos h2] at hk ⊢
        by_cases hkf : k = fh
        · subst hkf
          simp at hk
          exact absurd hk hs'
        · simp only [if_neg hkf] at hk ⊢
          refine ⟨(h k hk).1, fun p => ?_⟩
          have : ¬ (k = fh ∧ p = sender) := fun hc => hkf hc.1
          simp only [if_neg this]
          exact (h k hk).2 p
      · simpa [applyTx, uploadFile, if_pos h1, if_neg h2] using h
    · simpa [applyTx, uploadFile, if_neg h1] using h
  | grant sender fh g =>
    have hs' : sender ≠ 0 := hs
    by_cases h1 : (s.fileRecords fh).uploader = sender
    · by_cases h2 : g ≠ 0
      · intro k hk
        simp only [applyTx, grantAccess, if_pos h1, if_pos h2] at hk ⊢
        have hkf : ¬ k = fh := fun he => hs' (h1 ▸ he ▸ hk)
        refine ⟨(h k hk).1, fun p => ?_⟩
        have : ¬ (k = fh ∧ p = g) := fun hc => hkf hc.1
        simp only [if_neg this]
        exact (h k hk).2 p
      · simpa [applyTx, grantAccess, if_pos h1, if_neg h2] using h
    · simpa [applyTx, grantAccess, if_neg h1] using h
  | revoke sender fh g =>
    have hs' : sender ≠ 0 := hs
    by_cases h1 : (s.fileRecords fh).uploader = sender
    · by_cases h2 : g ≠ sender
      · intro k hk
        simp only [applyTx, revokeAccess, if_pos h1, if_pos h2] at hk ⊢
        refine ⟨(h k hk).1, fun p => ?_⟩
        split
        · rfl
        · exact (h k hk).2 p
      · simpa [applyTx, revokeAccess, if_pos h1, if_neg h2] using h
    · simpa [applyTx, revokeAccess, if_neg h1] using h

/-- C7: In every state reachable by transactions from non-zero senders (the
EVM guarantees the zero address never sends), a fileHash for which no upload
has succeeded — equivalently, whose uploader slot is still zero — has the
default record returned by getFileRecord without error, canAccess false for
every principal, and verifyLocation failing with the NotFound revert
("File not found") for every coordinate pair. -/
theorem absent_file_behavior (txs : List Tx)
    (hval : ∀ tx ∈ txs, tx.sender ≠ 0) (fh : Hash)
    (habs : fileExists (run txs) fh = false) :
    getFileRecord (run txs) fh = emptyRecord ∧
    (∀ p : Address, canAccess (run txs) fh p = false) ∧
    (∀ lat lon : Int,
      verifyLocation (run txs) fh lat lon = .error "File not found") := by
  have h0 : ((run txs).fileRecords fh).uploader = 0 := by
    have := habs
    simp [fileExists] at this
    exact this
  have hinv : AbsentIsDefault (run txs) :=
    preserve_foldl (Q := fun tx => tx.sender ≠ 0) absentIsDefault_applyTx
      txs initState hval absentIsDefault_init
  obtain ⟨hrec, hacc⟩ := hinv fh h0
  refine ⟨hrec, fun p => hacc p, fun lat lon => ?_⟩
  simp [verifyLocation, h0]

/-- Witness for C7: after an upload of hash 1, hash 2 is still absent. -/
theorem absent_file_behavior_witness :
    (∀ tx ∈ [Tx.upload 5 11 1 "QmX" [7] false 0 0 0], tx.sender ≠ 0) ∧
    fileExists (run [.upload 5 11 1 "QmX" [7] false 0 0 0]) 2 = false ∧
    getFileRecord (run [.upload 5 11 1 "QmX" [7] false 0 0 0]) 2 = emptyRecord ∧
    (∀ p : Address,
      canAccess (run [.upload 5 11 1 "QmX" [7] false 0 0 0]) 2 p = false) ∧
    (∀ lat lon : Int,
      verifyLocation (run [.upload 5 11 1 "QmX" [7] false 0 0 0]) 2 lat lon
        = .error "File not found") :=
  ⟨by decide, by decide,
   absent_file_behavior [.upload 5 11 1 "QmX" [7] false 0 0 0]
     (by decide) 2 (by decide)⟩

/-- C4 counterexample: on a fresh deployment (no record for hash 1), a grant
and a revoke by caller 42 do not fail with the NotFound revert the claim
predicts; they fail with the Unauthorized reverts instead, because the
contract's single uploader check cannot distinguish a missing record from a
wrong caller. -/
theorem missing_file_not_notfound_cx :
    grantAccess initState 42 1 7 ≠ .error "File not found" ∧
    revokeAccess initState 42 1 7 ≠ .error "File not found" ∧
    grantAccess initState 42 1 7 = .error "Only uploader can grant access" ∧
    revokeAccess initState 42 1 7 = .error "Only uploader can revoke access" := by
  have hg : grantAccess initState 42 1 7
      = .error "Only uploader can grant access" := rfl
  have hr : revokeAccess initState 42 1 7
      = .error "Only uploader can revoke access" := rfl
  refine ⟨?_, ?_, hg, hr⟩
  · rw [hg]
    intro hc
    exact absurd (Except.error.inj hc) (by decide)
  · rw [hr]
    intro hc
    exact absurd (Except.error.inj hc) (by decide)

/-- C4 amended: for every fileHash with no existing record, grantAccess and
revokeAccess by any non-zero caller fail with the Unauthorized reverts (the
uploader slot of a missing record is the zero address, so the single uploader
check fires), for every grantee. -/
theorem missing_file_grant_revoke_unauthorized (s : State) (fh : Hash)
    (caller grantee : Address)
    (habs : fileExists s fh = false)
    (hc : caller ≠ 0) :
    grantAccess s caller fh grantee = .error "Only uploader can grant access" ∧
    revokeAccess s caller fh grantee
      = .error "Only uploader can revoke access" := by
  have h0 : (s.fileRecords fh).uploader = 0 := by
    have := habs
    simp [fileExists] at this
    exact this
  have hne : ¬ (s.fileRecords fh).uploader = caller := by
    rw [h0]
    exact fun he => hc he.symm
  exact ⟨by simp [grantAccess, hne], by simp [revokeAccess, hne]⟩

/-- Witness for the amended C4 on a fresh deployment. -/
theorem missing_file_grant_revoke_unauthorized_witness :
    fileExists initState 1 = false ∧ (42 : Address) ≠ 0 ∧
    grantAccess initState 42 1 7 = .error "Only uploader can grant access" ∧
    revokeAccess initState 42 1 7 = .error "Only uploader can revoke access" :=
  ⟨by decide, by decide,
   missing_file_grant_revoke_unauthorized initState 1 42 7 (by decide) (by decide)⟩

/-- AM–GM over the naturals, squared form. -/
theorem two_mul_le_sq_add_sq (k z : Nat) : 2 * k * z ≤ k * k + z * z := by
  zify
  nlinarith [sq_nonneg ((k : Int) - z)]

/-- One Babylonian step from any positive `z` stays at or above the exact
root of a perfect square. -/
theorem le_newton_step (k z : Nat) (hz : 1 ≤ z) : k ≤ (k * k / z + z) / 2 := by
  have hq := Nat.div_add_mod (k * k) z
  have hr : k * k % z < z := Nat.mod_lt _ hz
  have hsq := two_mul_le_sq_add_sq k z
  have h2k : 2 * k ≤ k * k / z + z := by
    by_contra hlt
    push_neg at hlt
    have hmul : (k * k / z + z + 1) * z ≤ 2 * k * z :=
      Nat.mul_le_mul_right z (by omega)
    nlinarith [hq, hr, hsq, hmul]
  omega

/-- One Babylonian step from a value strictly above the root of a perfect
square strictly decreases. -/
theorem newton_step_lt (k z : Nat) (hz : k < z) : (k * k / z + z) / 2 < z := by
  have hzpos : 0 < z := by omega
  have hz1 : k + 1 ≤ z := hz
  have hq : k * k / z < z := by
    rw [Nat.div_lt_iff_lt_mul hzpos]
    nlinarith [Nat.mul_le_mul hz1 hz1]
  omega

/-- The Babylonian loop started anywhere at or above the exact root of a
perfect square, with fuel at least the previous iterate, returns the root. -/
theorem sqrtAux_perfect_square (k : Nat) (hk : 1 ≤ k) :
    ∀ z, k ≤ z → ∀ fuel, z ≤ fuel →
      sqrtAux (k * k) fuel ((k * k / z + z) / 2) z = k := by
  intro z
  induction z using Nat.strong_induction_on with
  | _ z ih =>
    intro hkz fuel hzf
    obtain ⟨m, rfl⟩ : ∃ m, fuel = m + 1 := ⟨fuel - 1, by omega⟩
    rcases Nat.eq_or_lt_of_le hkz with heq | hlt
    · subst heq
      have hdiv : k * k / k = k := Nat.mul_div_cancel_left k (by omega)
      rw [hdiv]
      have h2 : (k + k) / 2 = k := by omega
      rw [h2]
      simp [sqrtAux]
    · have hz1 : 1 ≤ z := by omega
      have hw1 : k ≤ (k * k / z + z) / 2 := le_newton_step k z hz1
      have hw2 : (k * k / z + z) / 2 < z := newton_step_lt k z hlt
      simp only [sqrtAux, if_pos hw2]
      exact ih _ hw2 hw1 m (by omega)

/-- C8: The contract's integer square root returns 0 on input 0 and on every
negative input, and returns exactly k on the perfect-square input k * k, for
every natural k. -/
theorem sqrt_spec :
    sqrt 0 = 0 ∧ (∀ x : Int, x < 0 → sqrt x = 0) ∧
    (∀ k : Nat, sqrt ((k : Int) * (k : Int)) = (k : Int)) := by
  refine ⟨rfl, fun x hx => ?_, fun k => ?_⟩
  · rw [sqrt, if_pos hx]
  · rcases Nat.eq_zero_or_pos k with hk0 | hk1
    · subst hk0
      rfl
    · have hcast : ((k : Int) * (k : Int)) = ((k * k : Nat) : Int) := by
        push_cast
        ring
      rw [hcast]
      have hpos : 0 < k * k := Nat.mul_pos hk1 hk1
      rw [sqrt,
        if_neg (by exact_mod_cast Int.not_lt.mpr (Int.natCast_nonneg (k * k))),
        if_neg (by exact_mod_cast Nat.pos_iff_ne_zero.mp hpos),
        Int.toNat_natCast]
      norm_cast
      rcases Nat.eq_or_lt_of_le hk1 with h1 | h2
      · rw [← h1]
        decide
      · have hn4 : 4 ≤ k * k := by nlinarith
        have hkz0 : k ≤ (k * k + 1) / 2 := by
          have : 2 * k ≤ k * k + 1 := by nlinarith
          omega
        have hmain := sqrtAux_perfect_square k hk1 ((k * k + 1) / 2) hkz0
          (k * k - 1) (by omega)
        obtain ⟨m, hm⟩ : ∃ m, k * k = m + 1 := ⟨k * k - 1, by omega⟩
        have hlt0 : (k * k + 1) / 2 < k * k := by omega
        rw [hm] at hmain hlt0 ⊢
        simp only [sqrtAux, if_pos hlt0]
        simpa using hmain

/-- Witness for C8: the parts with hypotheses, at x = -5 and k = 12. -/
theorem sqrt_spec_witness :
    (-5 : Int) < 0 ∧ sqrt (-5) = 0 ∧
    sqrt (((12 : Nat) : Int) * ((12 : Nat) : Int)) = ((12 : Nat) : Int) :=
  ⟨by decide, sqrt_spec.2.1 (-5) (by decide), sqrt_spec.2.2 12⟩

/-- C10: For every lock latitude in the valid ±90° range (±90,000,000
micro-degrees), the fixed-point radian conversion has absolute value below
1,000,000 (it is at most 157,079), so the truncating division by 1e6 feeding
the cosine is 0, the cosine term is exactly 1,000,000, and the planar x
offset collapses to dLon unchanged: calculateDistance equals the purely
planar expression in which the quadratic and quartic Taylor terms of cos
contribute nothing. -/
theorem small_latitude_planar (lat1 lon1 lat2 lon2 : Int)
    (hlo : -90000000 ≤ lat1) (hhi : lat1 ≤ 90000000) :
    (Int.tdiv (lat1 * 314159) 180000000).natAbs < 1000000 ∧
    Int.tdiv (Int.tdiv (lat1 * 314159) 180000000) 1000000 = 0 ∧
    cos (Int.tdiv (Int.tdiv (lat1 * 314159) 180000000) 1000000) = 1000000 ∧
    calculateDistance lat1 lon1 lat2 lon2 =
      Int.tdiv (sqrt
        ((Int.tdiv (lon2 * 314159) 180000000 - Int.tdiv (lon1 * 314159) 180000000) *
          (Int.tdiv (lon2 * 314159) 180000000 - Int.tdiv (lon1 * 314159) 180000000) +
         (Int.tdiv (lat2 * 314159) 180000000 - Int.tdiv (lat1 * 314159) 180000000) *
          (Int.tdiv (lat2 * 314159) 180000000 - Int.tdiv (lat1 * 314159) 180000000))
        * 6371000) 1000000 := by
  have hA : lat1.natAbs ≤ 90000000 := by omega
  have hB : (Int.tdiv (lat1 * 314159) 180000000).natAbs ≤ 157079 := by
    rw [Int.natAbs_tdiv, Int.natAbs_mul]
    show lat1.natAbs * 314159 / 180000000 ≤ 157079
    calc lat1.natAbs * 314159 / 180000000
        ≤ 90000000 * 314159 / 180000000 :=
          Nat.div_le_div_right (Nat.mul_le_mul_right _ hA)
      _ = 157079 := by norm_num
  have hzero : Int.tdiv (Int.tdiv (lat1 * 314159) 180000000) 1000000 = 0 := by
    rw [← Int.natAbs_eq_zero, Int.natAbs_tdiv]
    show (Int.tdiv (lat1 * 314159) 180000000).natAbs / 1000000 = 0
    exact Nat.div_eq_of_lt (by omega)
  refine ⟨by omega, hzero, by rw [hzero]; decide, ?_⟩
  simp only [calculateDistance]
  rw [hzero, show cos 0 = (1000000 : Int) by decide,
    Int.mul_tdiv_cancel _ (by norm_num : (1000000 : Int) ≠ 0)]

/-- Witness for C10 at the example lock latitude. -/
theorem small_latitude_planar_witness :
    (-90000000 : Int) ≤ 34052235 ∧ (34052235 : Int) ≤ 90000000 ∧
    ((Int.tdiv ((34052235 : Int) * 314159) 180000000).natAbs < 1000000 ∧
     Int.tdiv (Int.tdiv ((34052235 : Int) * 314159) 180000000) 1000000 = 0 ∧
     cos (Int.tdiv (Int.tdiv ((34052235 : Int) * 314159) 180000000) 1000000)
       = 1000000 ∧
     calculateDistance 34052235 (-118243683) 34053135 (-118243683) =
       Int.tdiv (sqrt
         ((Int.tdiv ((-118243683 : Int) * 314159) 180000000 -
             Int.tdiv ((-118243683 : Int) * 314159) 180000000) *
           (Int.tdiv ((-118243683 : Int) * 314159) 180000000 -
             Int.tdiv ((-118243683 : Int) * 314159) 180000000) +
          (Int.tdiv ((34053135 : Int) * 314159) 180000000 -
             Int.tdiv ((34052235 : Int) * 314159) 180000000) *
           (Int.tdiv ((34053135 : Int) * 314159) 180000000 -
             Int.tdiv ((34052235 : Int) * 314159) 180000000))
         * 6371000) 1000000) :=
  ⟨by decide, by decide,
   small_latitude_planar 34052235 (-118243683) 34053135 (-118243683)
     (by decide) (by decide)⟩

/-- C3 (evaluating the code at the spec's boundary example): for the lock at
(34.052235°, −118.243683°) and a query 0.0009° further north, the code
computes a distance of 6 meters, not a value near the true ~100 m — the
conversion scalar 314159/180000000 is an approximation of π/1800, ten times
smaller than the π/180 the adjacent source comment claims.  The containment
inequality is inclusive: with radius exactly 6 the query verifies true, and
with radius 5 it verifies false. -/
theorem boundary_query_distance_eval :
    calculateDistance 34052235 (-118243683) 34053135 (-118243683) = 6 ∧
    verifyLocation (run [.upload 5 11 1 "QmX" [7] true 34052235 (-118243683) 100])
      1 34053135 (-118243683) = .ok true ∧
    verifyLocation (run [.upload 5 11 1 "QmX" [7] true 34052235 (-118243683) 6])
      1 34053135 (-118243683) = .ok true ∧
    verifyLocation (run [.upload 5 11 1 "QmX" [7] true 34052235 (-118243683) 5])
      1 34053135 (-118243683) = .ok false :=
  ⟨by decide, rfl, rfl, rfl⟩

end LocationLockedVault
